import Mathlib

/-
  Verification of the research-hub-sync repository: a shallow embedding of
  its four command-line sync variants.

  The repository syncs Contentful entries into an Elasticsearch index.
  The canonical variant (the elasticsearch-client one, `index.js` of the
  Docker image, here `src/unnamed/part_000`) parses flags with commander,
  checks cluster health, fetches a single page of entries (skip 0,
  limit 1000), manages the destination index per the --reset /
  --no-create-index flags, and writes each item with `esClient.create`.
  The simpler variants (`src/research-hub-sync.js`, both halves, and
  `src/index.js`) write via raw HTTP PUT requests.

  Remote calls are modelled by oracles: every awaited remote call in the
  source carries a `.catch` handler that swallows the rejection and yields
  `undefined`, so each call's outcome is an `Option` (none = the promise
  rejected and the catch handler produced `undefined`).  JavaScript
  truthiness of those results is made explicit.  Runs are modelled as the
  list of remote-call events they emit plus how the process terminates.
-/

namespace ResearchHubSync

/-- The `sys` metadata of a Contentful entry; only `sys.id` is used. -/
structure Sys where
  id : String
deriving DecidableEq, Repr

/-- One fetched Contentful entry: `sys` metadata plus an arbitrary
name-keyed field mapping (the scripts never inspect fields beyond
`fields.name`, used only for logging). -/
structure Item where
  sys : Sys
  fields : List (String × String)
deriving DecidableEq, Repr

/-- The body of an acknowledged Elasticsearch index-management response
(`{ acknowledged: bool }`), read by the canonical variant. -/
structure Ack where
  acknowledged : Bool
deriving DecidableEq, Repr

/-- One remote call issued during a run. -/
inductive Event where
  | health : Event
  | fetchEntries (skip : Nat) (limit : Nat) (content_type : String) : Event
  | indexExists (index : String) : Event
  | indexDelete (index : String) : Event
  | indexCreate (index : String) : Event
  | docCreate (index : String) (id : String) (body : Item) : Event
  | docPut (index : String) (id : String) (body : Item) : Event
deriving DecidableEq, Repr

/-- Is this event the single-page `getEntries` call? -/
def Event.isFetch : Event → Bool
  | .fetchEntries _ _ _ => true
  | _ => false

/-- Is this event a per-item document write via the client `create` call? -/
def Event.isDocCreate : Event → Bool
  | .docCreate _ _ _ => true
  | _ => false

/-- Is this event a per-item document write via raw HTTP PUT? -/
def Event.isDocPut : Event → Bool
  | .docPut _ _ _ => true
  | _ => false

/-- Is this event a per-item document write (either client)? -/
def Event.isDocWrite : Event → Bool
  | .docCreate _ _ _ => true
  | .docPut _ _ _ => true
  | _ => false

/-- How the process terminates: an explicit `process.exit(code)`, or the
main promise settling with no exit call, after which node terminates with
status 0 once the event loop drains. -/
inductive RunExit where
  | exited (code : Nat) : RunExit
  | completed : RunExit
deriving DecidableEq, Repr

/-- The numeric exit status of the process. -/
def RunExit.code : RunExit → Nat
  | .exited n => n
  | .completed => 0

/-- Observable outcome of one run: the remote calls issued, whether usage
was printed, whether an exception reached the top-level catch, and how the
process terminated. -/
structure RunResult where
  events : List Event
  usage : Bool
  crashed : Bool
  exit : RunExit
deriving DecidableEq, Repr

/-- Command-line options of the commander-based variants (part_000 and
research-hub-sync.js): `-v`, `-s`, `-r`, `-c` alias `--no-create-index` (so
`createIndex` defaults to true), `-e <env>`, `-i <index>`.  `envId` and
`index` are `none` when the flag was not passed (JS `undefined`). -/
structure Opts where
  verbose : Bool
  summary : Bool
  reset : Bool
  createIndex : Bool
  envId : Option String
  index : Option String

/-- JavaScript `x || d` on an optional string: `undefined` and the empty
string are falsy and fall through to the default. -/
def jsOrStr (x : Option String) (d : String) : String :=
  match x with
  | some s => if s = "" then d else s
  | none => d

/-- Simplified model of change-case `paramCase` on a camelCase content
type: lowercase each letter and put a dash before each uppercase one. -/
def paramCase (s : String) : String :=
  String.mk (s.data.foldr
    (fun c acc => if c.isUpper then '-' :: c.toLower :: acc else c :: acc) [])

/-- Resolved script parameters of part_000 (lines 36-42): content type
from the positional argument, environment `program.env || 'master'`,
index name `program.index || ('research-hub-' + ENVIRONMENT + '-' +
changeCase.paramCase(CONTENT_TYPE))`. -/
structure Config where
  contentType : String
  environment : String
  indexName : String
  verbose : Bool
  summary : Bool
  createIndex : Bool
  reset : Bool

/-- Build the canonical variant's `Config` from the positional argument
and the parsed flags. -/
def mkConfig (ct : String) (o : Opts) : Config :=
  let env := jsOrStr o.envId "master"
  { contentType := ct
    environment := env
    indexName := jsOrStr o.index ("research-hub-" ++ env ++ "-" ++ paramCase ct)
    verbose := o.verbose
    summary := o.summary
    createIndex := o.createIndex
    reset := o.reset }

/-- Outcomes of the remote calls a canonical run may issue.  `none` means
the call's promise rejected (the `.catch` handler logged and yielded
`undefined`).  `writeOk i` is whether the i-th `esClient.create` call of
the publish loop resolves. -/
structure World where
  health : Option Unit
  existsRes : Option Bool
  deleteRes : Option Ack
  createRes : Option Ack
  fetchRes : Option (List Item)
  writeOk : Nat → Bool

/-- JS truthiness of the awaited `indices.exists` result: `true` is
truthy, `false` and `undefined` are falsy. -/
def truthyExists : Option Bool → Bool
  | some b => b
  | none => false

/-- The per-item publish loop of part_000 `postItems` (lines 108-119):
one `esClient.create({index, type, id: item.sys.id, body: item})` per
item, in page order; a rejected call is caught and counted in `fails`.
`i` is the position of the first remaining item. -/
def publishLoop (indexName : String) (writeOk : Nat → Bool)
    (items : List Item) (i : Nat) : List Event × Nat :=
  match items with
  | [] => ([], 0)
  | item :: rest =>
    let r := publishLoop indexName writeOk rest (i + 1)
    (Event.docCreate indexName item.sys.id item :: r.1,
      (if writeOk i then 0 else 1) + r.2)

/-- Continuation of part_000 `postItems` after the reset branch
(lines 79-123): create the index when `(CREATE_INDEX && !esIndexExists)
|| RESET`, reading `esIndexCreate.acknowledged` (which throws when the
create call rejected and left `undefined`); otherwise return the abort
sentinel 1 when the index does not exist; then run the publish loop.
`evs` are the events already emitted; the second component is `none`
when a TypeError was thrown. -/
def postItemsCreate (cfg : Config) (w : World) (items : List Item)
    (evs : List Event) (ex : Bool) : List Event × Option Nat :=
  if (cfg.createIndex && !ex) || cfg.reset then
    let e1 := evs ++ [Event.indexCreate cfg.indexName]
    match w.createRes with
    | none => (e1, none)
    | some _ =>
      let r := publishLoop cfg.indexName w.writeOk items 0
      (e1 ++ r.1, some r.2)
  else if !ex then
    (evs, some 1)
  else
    let r := publishLoop cfg.indexName w.writeOk items 0
    (evs ++ r.1, some r.2)

/-- part_000 `postItems` (lines 58-124): check index existence; when
`RESET && esIndexExists`, delete the index and read `res.acknowledged`
(which throws when the delete call rejected and left `undefined`); then
continue with creation and the publish loop.  Returns the emitted events
and `some fails` (the function's return value), or `none` when a
TypeError was thrown out of the function. -/
def postItems (cfg : Config) (w : World) (items : List Item) :
    List Event × Option Nat :=
  let ex := truthyExists w.existsRes
  let e0 := [Event.indexExists cfg.indexName]
  if cfg.reset && ex then
    let e1 := e0 ++ [Event.indexDelete cfg.indexName]
    match w.deleteRes with
    | none => (e1, none)
    | some _ => postItemsCreate cfg w items e1 ex
  else
    postItemsCreate cfg w items e0 ex

/-- part_000 `doSync` (lines 126-155): a single `getEntries({skip: 0,
limit: 1000, content_type})` call; when the response is falsy or has no
items, log "Aborting sync" and return 1; otherwise return what
`postItems` returns (`none` when it threw). -/
def doSync (cfg : Config) (w : World) : List Event × Option Nat :=
  let e0 := [Event.fetchEntries 0 1000 cfg.contentType]
  match w.fetchRes with
  | none => (e0, some 1)
  | some items =>
    if items.length > 0 then
      let r := postItems cfg w items
      (e0 ++ r.1, r.2)
    else
      (e0, some 1)

/-- part_000 main IIFE (lines 172-214): check cluster health; on a falsy
health result `process.exit(1)`; otherwise run `doSync` and
`process.exit(status ? 1 : 0)`.  An exception thrown inside is caught by
the top-level catch, which only logs, so the process then completes with
status 0 and `process.exit` is never called. -/
def runMain (cfg : Config) (w : World) : RunResult :=
  match w.health with
  | none =>
    { events := [Event.health], usage := false, crashed := false
      exit := RunExit.exited 1 }
  | some _ =>
    let r := doSync cfg w
    match r.2 with
    | none =>
      { events := Event.health :: r.1, usage := false, crashed := true
        exit := RunExit.completed }
    | some status =>
      { events := Event.health :: r.1, usage := false, crashed := false
        exit := RunExit.exited (if status ≠ 0 then 1 else 0) }

/-- A whole canonical run (part_000): when the positional-argument list
does not have exactly one element, print usage and `process.exit(1)`
before any client is built or any network call is made (lines 24-27);
otherwise resolve the config and run the main IIFE. -/
def runProgram (args : List String) (o : Opts) (w : World) : RunResult :=
  match args with
  | [ct] => runMain (mkConfig ct o) w
  | _ =>
    { events := [], usage := true, crashed := false
      exit := RunExit.exited 1 }

/-- Outcomes of the remote calls a `src/index.js` run may issue: the
`GET _cat/health` body (a string; `none` when the request rejected), the
`getEntries` response, and per-write resolution, as in `World`. -/
structure WorldIdx where
  health : Option String
  fetchRes : Option (List Item)
  writeOk : Nat → Bool

/-- JS truthiness of the awaited `_cat/health` string body: a non-empty
string is truthy; the empty string and `undefined` are falsy. -/
def truthyStr : Option String → Bool
  | some s => !(s == "")
  | none => false

/-- The per-item publish loop of `src/index.js` `postItems` (lines
43-55) and of both research-hub-sync.js variants: one
`PUT {url}/{indexName}/_doc/{item.sys.id}` with the item as JSON body
per item, in page order; a rejected request is caught and counted. -/
def putPublishLoop (indexName : String) (writeOk : Nat → Bool)
    (items : List Item) (i : Nat) : List Event × Nat :=
  match items with
  | [] => ([], 0)
  | item :: rest =>
    let r := putPublishLoop indexName writeOk rest (i + 1)
    (Event.docPut indexName item.sys.id item :: r.1,
      (if writeOk i then 0 else 1) + r.2)

/-- `src/index.js` `postItems` (lines 39-60): runs the PUT loop, logs the
counts, and returns `undefined` — the local `fails` counter is never
returned, so only the emitted events are observable. -/
def postItemsIdx (indexName : String) (w : WorldIdx) (items : List Item) :
    List Event :=
  (putPublishLoop indexName w.writeOk items 0).1

/-- `src/index.js` `doSync` (lines 62-90): one `getEntries({skip: 0,
limit: 1000, content_type})`; on a falsy response or an empty page it
only logs "Aborting sync" (no status is returned); otherwise it awaits
`postItems`. -/
def doSyncIdx (ct indexName : String) (w : WorldIdx) : List Event :=
  let e0 := [Event.fetchEntries 0 1000 ct]
  match w.fetchRes with
  | none => e0
  | some items =>
    if items.length > 0 then e0 ++ postItemsIdx indexName w items
    else e0

/-- A whole `src/index.js` run: `CONTENT_TYPE = process.argv[2] ||
'contentItem'`, `INDEX_NAME = process.argv[3] ||
'research-hub-master-articles'` (lines 14-15) — there is no
argument-count check and no usage output; the main IIFE checks
`_cat/health`, runs `doSync` when it is truthy, and never calls
`process.exit`, so the process always completes with status 0 (the
top-level catch only logs). -/
def runIndexJs (argv : List String) (w : WorldIdx) : RunResult :=
  let ct := jsOrStr (argv.get? 2) "contentItem"
  let indexName := jsOrStr (argv.get? 3) "research-hub-master-articles"
  if truthyStr w.health then
    { events := Event.health :: doSyncIdx ct indexName w
      usage := false, crashed := false, exit := RunExit.completed }
  else
    { events := [Event.health], usage := false, crashed := false
      exit := RunExit.completed }

/-- The destination index's document store: an association list from
document id to document body. -/
abbrev EsStore : Type := List (String × Item)

/-- Look up the document stored under an id. -/
def storeLookup (s : EsStore) (id : String) : Option Item :=
  match s with
  | [] => none
  | kv :: t => if kv.1 = id then some kv.2 else storeLookup t id

/-- Replace the document under an id, or append it when absent. -/
def storeUpsert (s : EsStore) (id : String) (doc : Item) : EsStore :=
  match s with
  | [] => [(id, doc)]
  | kv :: t => if kv.1 = id then (id, doc) :: t else kv :: storeUpsert t id doc

/-- Models the Elasticsearch document index API used by the PUT-based
variants (`PUT {url}/{index}/_doc/{id}` in research-hub-sync.js lines
87-101 and index.js lines 43-55): create-or-replace keyed by id, always
accepted by the destination. -/
def esPutDoc (s : EsStore) (id : String) (doc : Item) : Except Unit EsStore :=
  Except.ok (storeUpsert s id doc)

/-- Models the Elasticsearch create API used by the canonical variant
(`esClient.create`, part_000 lines 110-118, i.e. `PUT
{index}/{type}/{id}/_create`): stores the document when the id is free
and rejects with a version-conflict error when a document with that id
already exists. -/
def esCreateDoc (s : EsStore) (id : String) (doc : Item) :
    Except Unit EsStore :=
  match storeLookup s id with
  | some _ => Except.error ()
  | none => Except.ok ((id, doc) :: s)

/-- The publish loop run against the destination store: one write per
item keyed by `item.sys.id` with the item as body, a rejected write
caught and counted in `fails`, the next item processed regardless
(translated from the for-loops cited above, with `op` the destination's
write semantics). -/
def writeLoop (op : EsStore → String → Item → Except Unit EsStore)
    (s : EsStore) (items : List Item) : EsStore × Nat :=
  match items with
  | [] => (s, 0)
  | item :: rest =>
    match op s item.sys.id item with
    | Except.ok s2 => writeLoop op s2 rest
    | Except.error _ =>
      let r := writeLoop op s rest
      (r.1, r.2 + 1)

/-! ### Helper lemmas -/

theorem publishLoop_fst (idx : String) (ok : Nat → Bool) (items : List Item) :
    ∀ i, (publishLoop idx ok items i).1
      = items.map (fun item => Event.docCreate idx item.sys.id item) := by
  induction items with
  | nil => intro i; rfl
  | cons it rest ih => intro i; simp [publishLoop, ih (i + 1)]

theorem publishLoop_snd_le (idx : String) (ok : Nat → Bool) (items : List Item) :
    ∀ i, (publishLoop idx ok items i).2 ≤ items.length := by
  induction items with
  | nil => intro i; simp [publishLoop]
  | cons it rest ih =>
    intro i
    have h := ih (i + 1)
    simp only [publishLoop, List.length_cons]
    split <;> omega

theorem putPublishLoop_fst (idx : String) (ok : Nat → Bool) (items : List Item) :
    ∀ i, (putPublishLoop idx ok items i).1
      = items.map (fun item => Event.docPut idx item.sys.id item) := by
  induction items with
  | nil => intro i; rfl
  | cons it rest ih => intro i; simp [putPublishLoop, ih (i + 1)]

theorem publishLoop_filter_isFetch (idx : String) (ok : Nat → Bool)
    (items : List Item) (i : Nat) :
    ((publishLoop idx ok items i).1.filter Event.isFetch) = [] := by
  rw [publishLoop_fst]
  simp [List.filter_eq_nil_iff, Event.isFetch]

theorem publishLoop_filter_isDocCreate (idx : String) (ok : Nat → Bool)
    (items : List Item) (i : Nat) :
    ((publishLoop idx ok items i).1.filter Event.isDocCreate).length
      = items.length := by
  rw [publishLoop_fst]
  rw [List.filter_eq_self.mpr]
  · simp
  · intro e he
    simp only [List.mem_map] at he
    obtain ⟨it, _, rfl⟩ := he
    rfl

theorem publishLoop_all_docCreate (idx : String) (ok : Nat → Bool)
    (items : List Item) (i : Nat) :
    ∀ e ∈ (publishLoop idx ok items i).1, Event.isDocCreate e = true := by
  rw [publishLoop_fst]
  intro e he
  simp only [List.mem_map] at he
  obtain ⟨it, _, rfl⟩ := he
  rfl

theorem putPublishLoop_filter_isFetch (idx : String) (ok : Nat → Bool)
    (items : List Item) (i : Nat) :
    ((putPublishLoop idx ok items i).1.filter Event.isFetch) = [] := by
  rw [putPublishLoop_fst]
  simp [List.filter_eq_nil_iff, Event.isFetch]

theorem postItemsCreate_filter_isFetch (cfg : Config) (w : World)
    (items : List Item) (evs : List Event) (ex : Bool)
    (h : evs.filter Event.isFetch = []) :
    ((postItemsCreate cfg w items evs ex).1.filter Event.isFetch) = [] := by
  unfold postItemsCreate
  split
  · cases w.createRes <;>
      simp [List.filter_append, h, Event.isFetch, publishLoop_filter_isFetch]
  · split
    · simpa using h
    · simp [List.filter_append, h, publishLoop_filter_isFetch]

theorem postItems_filter_isFetch (cfg : Config) (w : World) (items : List Item) :
    ((postItems cfg w items).1.filter Event.isFetch) = [] := by
  unfold postItems
  by_cases hr : (cfg.reset && truthyExists w.existsRes) = true
  · rw [if_pos hr]
    cases w.deleteRes with
    | none => simp [Event.isFetch]
    | some a =>
      exact postItemsCreate_filter_isFetch cfg w items _ _ (by simp [Event.isFetch])
  · rw [if_neg hr]
    exact postItemsCreate_filter_isFetch cfg w items _ _ (by simp [Event.isFetch])

theorem doSync_filter_isFetch (cfg : Config) (w : World) :
    ((doSync cfg w).1.filter Event.isFetch)
      = [Event.fetchEntries 0 1000 cfg.contentType] := by
  unfold doSync
  split
  · simp [Event.isFetch]
  · split
    · simp [List.filter_append, Event.isFetch, postItems_filter_isFetch]
    · simp [Event.isFetch]

/-! ### Claim theorems -/

/-- C6: every run of the sync procedure issues exactly one source fetch,
with offset 0 and limit 1000 — never a pagination loop (no run trace
contains more than one fetch event) — and on the publish path the number
of publish attempts equals the number of items in the single fetched
page, with the failure count at most the attempt count. -/
theorem c6_single_fetch_bounded_publish :
    (∀ (cfg : Config) (w : World),
      ((doSync cfg w).1.filter Event.isFetch)
        = [Event.fetchEntries 0 1000 cfg.contentType])
    ∧ (∀ (args : List String) (o : Opts) (w : World),
      ((runProgram args o w).events.filter Event.isFetch).length ≤ 1)
    ∧ (∀ (idx : String) (ok : Nat → Bool) (items : List Item) (i : Nat),
      ((publishLoop idx ok items i).1.filter Event.isDocCreate).length
          = items.length
        ∧ (publishLoop idx ok items i).2 ≤ items.length) := by
  refine ⟨fun cfg w => doSync_filter_isFetch cfg w, ?_, ?_⟩
  · intro args o w
    cases args with
    | nil => simp [runProgram]
    | cons ct rest =>
      cases rest with
      | nil =>
        cases hh : w.health with
        | none => simp [runProgram, runMain, hh, Event.isFetch]
        | some u =>
          simp only [runProgram, runMain, hh]
          cases hs : (doSync (mkConfig ct o) w).2 <;>
            simp [Event.isFetch, doSync_filter_isFetch]
      | cons b t => simp [runProgram]
  · intro idx ok items i
    exact ⟨publishLoop_filter_isDocCreate idx ok items i,
      publishLoop_snd_le idx ok items i⟩

/-- C9: the `src/index.js` variant exits with status 0 on every run that
does not crash synchronously — it never calls `process.exit`, so a
failed fetch, an empty page, or failure of every per-item write still
yields exit status 0 (its `postItems` returns no failure count: see
`postItemsIdx`, which exposes only the emitted events). -/
theorem c9_indexjs_always_exits_zero (argv : List String) (w : WorldIdx) :
    (runIndexJs argv w).exit = RunExit.completed
    ∧ RunExit.code (runIndexJs argv w).exit = 0 := by
  unfold runIndexJs
  split <;> simp [RunExit.code]

/-- C10: for every fetched page that reaches the publish loop of the
canonical variant, document writes are issued strictly in the page's
item order, exactly one write per item, each using that item's `sys.id`
as the document id and the whole item object as the document body. -/
theorem c10_writes_in_page_order (idx : String) (ok : Nat → Bool)
    (items : List Item) (i : Nat) :
    (publishLoop idx ok items i).1
      = items.map (fun item => Event.docCreate idx item.sys.id item) :=
  publishLoop_fst idx ok items i

theorem postItemsCreate_eq_create_none (cfg : Config) (w : World)
    (items : List Item) (evs : List Event) (ex : Bool)
    (hcond : ((cfg.createIndex && !ex) || cfg.reset) = true)
    (hcr : w.createRes = none) :
    postItemsCreate cfg w items evs ex
      = (evs ++ [Event.indexCreate cfg.indexName], none) := by
  unfold postItemsCreate
  rw [if_pos hcond, hcr]

theorem postItemsCreate_eq_create_some (cfg : Config) (w : World)
    (items : List Item) (evs : List Event) (ex : Bool) (a : Ack)
    (hcond : ((cfg.createIndex && !ex) || cfg.reset) = true)
    (hcr : w.createRes = some a) :
    postItemsCreate cfg w items evs ex
      = (evs ++ [Event.indexCreate cfg.indexName]
          ++ (publishLoop cfg.indexName w.writeOk items 0).1,
         some (publishLoop cfg.indexName w.writeOk items 0).2) := by
  unfold postItemsCreate
  rw [if_pos hcond, hcr]

theorem postItemsCreate_eq_abort (cfg : Config) (w : World)
    (items : List Item) (evs : List Event) (ex : Bool)
    (hcond : ((cfg.createIndex && !ex) || cfg.reset) = false)
    (hex : ex = false) :
    postItemsCreate cfg w items evs ex = (evs, some 1) := by
  unfold postItemsCreate
  rw [if_neg (by simp [hcond]), if_pos (by simp [hex])]

theorem postItems_eq_reset_del_none (cfg : Config) (w : World)
    (items : List Item)
    (hre : (cfg.reset && truthyExists w.existsRes) = true)
    (hd : w.deleteRes = none) :
    postItems cfg w items
      = ([Event.indexExists cfg.indexName, Event.indexDelete cfg.indexName],
         none) := by
  unfold postItems
  rw [if_pos hre, hd]
  rfl

theorem postItems_eq_reset_del_some (cfg : Config) (w : World)
    (items : List Item) (a : Ack)
    (hre : (cfg.reset && truthyExists w.existsRes) = true)
    (hd : w.deleteRes = some a) :
    postItems cfg w items
      = postItemsCreate cfg w items
          [Event.indexExists cfg.indexName, Event.indexDelete cfg.indexName]
          (truthyExists w.existsRes) := by
  unfold postItems
  rw [if_pos hre, hd]
  rfl

theorem postItems_eq_noreset (cfg : Config) (w : World) (items : List Item)
    (hre : (cfg.reset && truthyExists w.existsRes) = false) :
    postItems cfg w items
      = postItemsCreate cfg w items [Event.indexExists cfg.indexName]
          (truthyExists w.existsRes) := by
  unfold postItems
  rw [if_neg (by simp [hre])]

theorem doSync_eq_items (cfg : Config) (w : World) (items : List Item)
    (hf : w.fetchRes = some items) (hl : items.length > 0) :
    doSync cfg w
      = ([Event.fetchEntries 0 1000 cfg.contentType]
          ++ (postItems cfg w items).1,
         (postItems cfg w items).2) := by
  unfold doSync
  rw [hf]
  simp only [if_pos hl]

theorem runMain_eq_crash (cfg : Config) (w : World)
    (hh : w.health = some ()) (hcr : (doSync cfg w).2 = none) :
    runMain cfg w
      = { events := Event.health :: (doSync cfg w).1, usage := false
          crashed := true, exit := RunExit.completed } := by
  unfold runMain
  rw [hh]
  rcases hd : doSync cfg w with ⟨evs, r2⟩
  rw [hd] at hcr
  cases r2 with
  | none => rfl
  | some n => simp at hcr

theorem runMain_eq_status (cfg : Config) (w : World) (n : Nat)
    (hh : w.health = some ()) (hs : (doSync cfg w).2 = some n) :
    runMain cfg w
      = { events := Event.health :: (doSync cfg w).1, usage := false
          crashed := false
          exit := RunExit.exited (if n ≠ 0 then 1 else 0) } := by
  unfold runMain
  rw [hh]
  rcases hd : doSync cfg w with ⟨evs, r2⟩
  rw [hd] at hs
  cases r2 with
  | none => simp at hs
  | some m =>
    have hm : m = n := by simpa using hs
    subst hm
    rfl

/-- C7: when the reset flag is set and the destination index exists, the
index delete completes before the index create is issued, and the create
completes before the first per-item document write is issued: the event
trace of `postItems` starts with the existence check followed
immediately by the delete; whatever follows is either nothing (the
delete's result was `undefined` and the TypeError ended the run) or the
create followed only by per-item writes. -/
theorem c7_reset_delete_create_write_order
    (cfg : Config) (w : World) (items : List Item)
    (hr : cfg.reset = true) (he : truthyExists w.existsRes = true) :
    ∃ rest,
      (postItems cfg w items).1
        = Event.indexExists cfg.indexName
            :: Event.indexDelete cfg.indexName :: rest
      ∧ (rest = []
         ∨ ∃ rest2, rest = Event.indexCreate cfg.indexName :: rest2
             ∧ ∀ e ∈ rest2, Event.isDocCreate e = true) := by
  have hre : (cfg.reset && truthyExists w.existsRes) = true := by
    simp [hr, he]
  have hcond : ((cfg.createIndex && !(truthyExists w.existsRes)) || cfg.reset)
      = true := by simp [hr]
  cases hd : w.deleteRes with
  | none =>
    rw [postItems_eq_reset_del_none cfg w items hre hd]
    exact ⟨[], rfl, Or.inl rfl⟩
  | some a =>
    rw [postItems_eq_reset_del_some cfg w items a hre hd]
    cases hc : w.createRes with
    | none =>
      rw [postItemsCreate_eq_create_none cfg w items _ _ hcond hc]
      exact ⟨[Event.indexCreate cfg.indexName], by simp,
        Or.inr ⟨[], rfl, by simp⟩⟩
    | some b =>
      rw [postItemsCreate_eq_create_some cfg w items _ _ b hcond hc]
      refine ⟨Event.indexCreate cfg.indexName
          :: (publishLoop cfg.indexName w.writeOk items 0).1,
        by simp, Or.inr ⟨_, rfl, ?_⟩⟩
      exact publishLoop_all_docCreate cfg.indexName w.writeOk items 0

/-- C8: in the canonical variant, if a reached index delete or index
create call fails (its promise rejects and the catch yields
`undefined`), the access to `acknowledged` on the undefined result
throws; the exception is caught only by the top-level catch, no document
is written, `process.exit` is never called, and the process terminates
with exit status 0. -/
theorem c8_index_mgmt_failure_crashes_to_exit_zero
    (cfg : Config) (w : World) (items : List Item)
    (hh : w.health = some ()) (hf : w.fetchRes = some items)
    (hne : items ≠ [])
    (hcrash :
      (cfg.reset = true ∧ truthyExists w.existsRes = true
        ∧ w.deleteRes = none)
      ∨ (((cfg.createIndex && !(truthyExists w.existsRes)) || cfg.reset)
            = true
         ∧ (cfg.reset = true → truthyExists w.existsRes = true →
              w.deleteRes ≠ none)
         ∧ w.createRes = none)) :
    (runMain cfg w).crashed = true
    ∧ (runMain cfg w).exit = RunExit.completed
    ∧ RunExit.code (runMain cfg w).exit = 0
    ∧ (runMain cfg w).events.filter Event.isDocCreate = [] := by
  have hpost : (postItems cfg w items).2 = none
      ∧ ((postItems cfg w items).1.filter Event.isDocCreate) = [] := by
    rcases hcrash with ⟨hr, he, hd⟩ | ⟨hcond, hdel, hcr⟩
    · rw [postItems_eq_reset_del_none cfg w items (by simp [hr, he]) hd]
      simp [Event.isDocCreate]
    · by_cases hre : (cfg.reset && truthyExists w.existsRes) = true
      · have hre2 : cfg.reset = true ∧ truthyExists w.existsRes = true := by
          simpa using hre
        have hd2 : w.deleteRes ≠ none := hdel hre2.1 hre2.2
        cases hdd : w.deleteRes with
        | none => exact absurd hdd hd2
        | some a =>
          rw [postItems_eq_reset_del_some cfg w items a hre hdd,
            postItemsCreate_eq_create_none cfg w items _ _ hcond hcr]
          simp [Event.isDocCreate]
      · rw [postItems_eq_noreset cfg w items (by simpa using hre),
          postItemsCreate_eq_create_none cfg w items _ _ hcond hcr]
        simp [Event.isDocCreate]
  have hl : items.length > 0 := List.length_pos.mpr hne
  have hds := doSync_eq_items cfg w items hf hl
  have hds2 : (doSync cfg w).2 = none := by rw [hds]; exact hpost.1
  rw [runMain_eq_crash cfg w hh hds2]
  refine ⟨rfl, rfl, rfl, ?_⟩
  simp only [hds]
  simp [List.filter_append, hpost.2, Event.isDocCreate]

theorem storeLookup_upsert_self (s : EsStore) (id : String) (doc : Item) :
    storeLookup (storeUpsert s id doc) id = some doc := by
  induction s with
  | nil => simp [storeUpsert, storeLookup]
  | cons kv t ih =>
    by_cases h : kv.1 = id
    · simp [storeUpsert, h, storeLookup]
    · simp [storeUpsert, h, storeLookup, ih]

theorem putLoop_snd_zero (s : EsStore) (items : List Item) :
    (writeLoop esPutDoc s items).2 = 0 := by
  induction items generalizing s with
  | nil => rfl
  | cons it rest ih => simp [writeLoop, esPutDoc, ih]

theorem doSyncIdx_filter_isFetch (ct idx : String) (w : WorldIdx) :
    ((doSyncIdx ct idx w).filter Event.isFetch)
      = [Event.fetchEntries 0 1000 ct] := by
  unfold doSyncIdx
  split
  · simp [Event.isFetch]
  · split
    · simp [List.filter_append, Event.isFetch, postItemsIdx,
        putPublishLoop_filter_isFetch]
    · simp [Event.isFetch]

theorem doSync_eq_fetch_none (cfg : Config) (w : World)
    (hf : w.fetchRes = none) :
    doSync cfg w = ([Event.fetchEntries 0 1000 cfg.contentType], some 1) := by
  unfold doSync
  rw [hf]

theorem doSync_eq_fetch_empty (cfg : Config) (w : World)
    (hf : w.fetchRes = some []) :
    doSync cfg w = ([Event.fetchEntries 0 1000 cfg.contentType], some 1) := by
  unfold doSync
  rw [hf]
  rfl

/-- Sample entry used in concrete runs. -/
def itemFoo : Item := ⟨⟨"a"⟩, [("name", "Foo")]⟩

/-- Second sample entry used in concrete runs. -/
def itemBar : Item := ⟨⟨"b"⟩, [("name", "Bar")]⟩

/-- C3 counterexample: with the canonical variant's `esClient.create`
write, publishing a one-item page into an empty index succeeds, but
republishing the very same page reports one failure, not zero — `create`
is create-only, not create-or-replace. -/
theorem c3_counterexample_republish_fails :
    (writeLoop esCreateDoc [] [itemFoo]).2 = 0
    ∧ (writeLoop esCreateDoc (writeLoop esCreateDoc [] [itemFoo]).1
        [itemFoo]).2 = 1 := by
  exact ⟨rfl, rfl⟩

/-- C3 amended: in the PUT-based variants each item is written with
upsert (create-or-replace) semantics keyed by `sys.id` — republishing
any page reports zero failures and the document under the item's id is
replaced by the item — while in the canonical variant the client
`create` call is create-only, so publishing an item whose identifier
already has a document in the index is counted as a failure. -/
theorem c3_put_upsert_create_conflict :
    (∀ (s : EsStore) (items : List Item),
      (writeLoop esPutDoc s items).2 = 0)
    ∧ (∀ (s : EsStore) (doc : Item),
      storeLookup ((writeLoop esPutDoc s [doc]).1) doc.sys.id = some doc)
    ∧ (∀ (s : EsStore) (doc : Item),
      storeLookup s doc.sys.id ≠ none →
        (writeLoop esCreateDoc s [doc]).2 = 1) := by
  refine ⟨fun s items => putLoop_snd_zero s items, fun s doc => ?_,
    fun s doc h => ?_⟩
  · show storeLookup (writeLoop esPutDoc (storeUpsert s doc.sys.id doc) []).1
        doc.sys.id = some doc
    exact storeLookup_upsert_self s doc.sys.id doc
  · cases hl : storeLookup s doc.sys.id with
    | none => exact absurd hl h
    | some d => simp [writeLoop, esCreateDoc, hl]

theorem c3_put_upsert_create_conflict_witness :
    storeLookup [("b", itemBar)] itemBar.sys.id ≠ none
    ∧ (writeLoop esCreateDoc [("b", itemBar)] [itemBar]).2 = 1 :=
  ⟨by decide,
   c3_put_upsert_create_conflict.2.2 [("b", itemBar)] itemBar (by decide)⟩

/-- Options of the C4 counterexample run: `--reset` together with
`--no-create-index`, explicit index name. -/
def c4ox : Opts := ⟨false, false, true, false, none, some "idx"⟩

/-- World of the C4 counterexample run: index absent, all remote calls
succeed, one fetched item. -/
def c4wx : World :=
  ⟨some (), some false, some ⟨true⟩, some ⟨true⟩, some [itemFoo],
   fun _ => true⟩

/-- C4 counterexample: with `--reset` set, `--no-create-index` set, and
the index absent, the canonical run is NOT aborted: the create branch is
taken (`(CREATE_INDEX && !esIndexExists) || RESET`), a document write is
issued, and the process exits 0 — refuting "regardless of the other
flags, including reset". -/
theorem c4_counterexample_reset_overrides :
    ((runProgram ["articles"] c4ox c4wx).events.filter Event.isDocCreate
      ≠ [])
    ∧ (runProgram ["articles"] c4ox c4wx).exit ≠ RunExit.exited 1
    ∧ (runProgram ["articles"] c4ox c4wx).exit = RunExit.exited 0 := by
  refine ⟨?_, ?_, ?_⟩ <;> decide

/-- C4 amended: for every run in which the destination index is observed
as not existing, the create-index flag is disabled AND the reset flag is
not set, no document write is attempted and the process exits with
status 1 (the publish step, when reached, returns the failure
sentinel). -/
theorem c4_abort_when_no_create_and_no_reset
    (args : List String) (o : Opts) (w : World)
    (hc : o.createIndex = false) (hr : o.reset = false)
    (he : w.existsRes = some false) :
    ((runProgram args o w).events.filter Event.isDocCreate = [])
    ∧ (runProgram args o w).exit = RunExit.exited 1 := by
  cases args with
  | nil => exact ⟨rfl, rfl⟩
  | cons ct rest =>
    cases rest with
    | cons b t => exact ⟨rfl, rfl⟩
    | nil =>
      have hrp : runProgram [ct] o w = runMain (mkConfig ct o) w := rfl
      rw [hrp]
      have hcr2 : (mkConfig ct o).createIndex = false := hc
      have hrs2 : (mkConfig ct o).reset = false := hr
      have hex : truthyExists w.existsRes = false := by rw [he]; rfl
      cases hh : w.health with
      | none =>
        unfold runMain
        rw [hh]
        exact ⟨rfl, rfl⟩
      | some u =>
        cases u
        have hre : ((mkConfig ct o).reset && truthyExists w.existsRes)
            = false := by rw [hrs2]; rfl
        have hcond : (((mkConfig ct o).createIndex
              && !(truthyExists w.existsRes)) || (mkConfig ct o).reset)
            = false := by rw [hcr2, hrs2]; rfl
        have habort : ∀ items : List Item,
            postItems (mkConfig ct o) w items
              = ([Event.indexExists (mkConfig ct o).indexName], some 1) := by
          intro items
          rw [postItems_eq_noreset (mkConfig ct o) w items hre,
            postItemsCreate_eq_abort (mkConfig ct o) w items _ _ hcond hex]
        cases hf : w.fetchRes with
        | none =>
          have hds := doSync_eq_fetch_none (mkConfig ct o) w hf
          rw [runMain_eq_status (mkConfig ct o) w 1 hh (by rw [hds])]
          exact ⟨by simp [hds, Event.isDocCreate], by simp⟩
        | some items =>
          cases items with
          | nil =>
            have hds := doSync_eq_fetch_empty (mkConfig ct o) w hf
            rw [runMain_eq_status (mkConfig ct o) w 1 hh (by rw [hds])]
            exact ⟨by simp [hds, Event.isDocCreate], by simp⟩
          | cons it rest2 =>
            have hl : (it :: rest2).length > 0 := by simp
            have hds := doSync_eq_items (mkConfig ct o) w (it :: rest2) hf hl
            have hds2 : (doSync (mkConfig ct o) w).2 = some 1 := by
              rw [hds, habort]
            rw [runMain_eq_status (mkConfig ct o) w 1 hh hds2]
            refine ⟨?_, by simp⟩
            simp [hds, habort, Event.isDocCreate, List.filter_append]

/-- Options of the C4 witness run. -/
def c4o : Opts := ⟨false, false, false, false, none, some "idx"⟩

/-- World of the C4 witness run: index absent, one fetched item. -/
def c4w : World :=
  ⟨some (), some false, some ⟨true⟩, some ⟨true⟩, some [itemFoo],
   fun _ => true⟩

theorem c4_abort_when_no_create_and_no_reset_witness :
    c4o.createIndex = false ∧ c4o.reset = false
    ∧ c4w.existsRes = some false
    ∧ (((runProgram ["articles"] c4o c4w).events.filter Event.isDocCreate
          = [])
       ∧ (runProgram ["articles"] c4o c4w).exit = RunExit.exited 1) :=
  ⟨rfl, rfl, rfl,
   c4_abort_when_no_create_and_no_reset ["articles"] c4o c4w rfl rfl rfl⟩

/-- World of the C5 counterexample run of `src/index.js`: healthy
destination, empty fetched page. -/
def c5wx : WorldIdx := ⟨some "ok", some [], fun _ => true⟩

/-- C5 counterexample: invoking `src/index.js` with the positional
content-type argument omitted (argv has only the node binary and the
script path) performs network calls, prints no usage, and terminates
with exit status 0, not 1 — the argument silently defaults to
`contentItem`. -/
theorem c5_counterexample_indexjs_defaults :
    ((runIndexJs ["node", "index.js"] c5wx).events ≠ [])
    ∧ RunExit.code (runIndexJs ["node", "index.js"] c5wx).exit = 0
    ∧ (runIndexJs ["node", "index.js"] c5wx).usage = false := by
  refine ⟨?_, ?_, ?_⟩ <;> decide

/-- C5 amended: in the commander-based variants, every invocation whose
positional-argument list does not have exactly one element prints usage
and exits with status 1 before any network call (the event list is
empty); the `src/index.js` variant instead defaults the content type to
`contentItem` and proceeds with the sync. -/
theorem c5_missing_argument_behaviour :
    (∀ (args : List String) (o : Opts) (w : World), args.length ≠ 1 →
      runProgram args o w
        = { events := [], usage := true, crashed := false
            exit := RunExit.exited 1 })
    ∧ (∀ (argv : List String) (w : WorldIdx), argv.get? 2 = none →
      truthyStr w.health = true →
      (runIndexJs argv w).events.filter Event.isFetch
        = [Event.fetchEntries 0 1000 "contentItem"]) := by
  constructor
  · intro args o w h
    cases args with
    | nil => rfl
    | cons ct rest =>
      cases rest with
      | nil => exact absurd rfl h
      | cons b t => rfl
  · intro argv w h2 hh
    unfold runIndexJs
    rw [h2, if_pos hh]
    simp [Event.isFetch, jsOrStr, doSyncIdx_filter_isFetch]

/-- Options of the C5 witness run of the canonical variant. -/
def c5o : Opts := ⟨false, false, false, true, none, none⟩

/-- World of the C5 witness run of the canonical variant. -/
def c5w : World := ⟨none, none, none, none, none, fun _ => true⟩

/-- World of the C5 witness run of `src/index.js`. -/
def c5wi : WorldIdx := ⟨some "1551 ok", some [itemFoo], fun _ => true⟩

theorem c5_missing_argument_behaviour_witness :
    (runProgram [] c5o c5w
      = { events := [], usage := true, crashed := false
          exit := RunExit.exited 1 })
    ∧ ((runIndexJs ["node", "script"] c5wi).events.filter Event.isFetch
        = [Event.fetchEntries 0 1000 "contentItem"]) :=
  ⟨c5_missing_argument_behaviour.1 [] c5o c5w (by decide),
   c5_missing_argument_behaviour.2 ["node", "script"] c5wi (by decide)
     (by decide)⟩

/-- Options of the C1 exhibit run: defaults, explicit index name. -/
def c1o : Opts := ⟨false, false, false, true, none, some "idx"⟩

/-- World of the C1 exhibit run: index absent, the index create call
rejects, one fetched item, writes would succeed. -/
def c1w : World :=
  ⟨some (), some false, some ⟨true⟩, none, some [itemFoo], fun _ => true⟩

/-- C1 (exhibit of the code bug): a canonical run in which the source
fetch succeeded with one item but the index create call failed exits
with status 0 even though no per-item publish ever happened — the
TypeError on `esIndexCreate.acknowledged` is swallowed by the top-level
catch and `process.exit` is never reached, contradicting the exit-code
contract that every abort exits 1. -/
theorem c1_create_failure_exits_zero :
    RunExit.code (runProgram ["article"] c1o c1w).exit = 0
    ∧ (runProgram ["article"] c1o c1w).events.filter Event.isDocCreate = []
    ∧ (runProgram ["article"] c1o c1w).crashed = true := by
  refine ⟨?_, ?_, ?_⟩ <;> decide

/-- Options of the C2 exhibit run: `--reset`, explicit index name. -/
def c2o : Opts := ⟨false, false, true, true, none, some "idx"⟩

/-- World of the C2 exhibit run: index exists, the index delete call
rejects, one fetched item, writes would succeed. -/
def c2w : World :=
  ⟨some (), some true, none, some ⟨true⟩, some [itemBar], fun _ => true⟩

/-- C2 (exhibit of the code bug): when the index delete call fails in a
`--reset` run, the run does NOT proceed to the publish loop — the
TypeError on `res.acknowledged` aborts it (caught only by the top-level
catch), no document write is issued, and the process completes without
`process.exit` — contradicting the claim that such a failure is only
logged and the index manager still succeeds. -/
theorem c2_delete_failure_aborts_run :
    (runProgram ["article"] c2o c2w).crashed = true
    ∧ (runProgram ["article"] c2o c2w).events.filter Event.isDocCreate = []
    ∧ (runProgram ["article"] c2o c2w).exit = RunExit.completed := by
  refine ⟨?_, ?_, ?_⟩ <;> decide

/-- Config of the C7 witness run. -/
def c7cfg : Config := ⟨"articles", "master", "idx7", false, false, true, true⟩

/-- World of the C7 witness run: index exists, delete and create both
acknowledged, writes succeed. -/
def c7w : World :=
  ⟨some (), some true, some ⟨true⟩, some ⟨true⟩, some [itemFoo],
   fun _ => true⟩

theorem c7_reset_delete_create_write_order_witness :
    c7cfg.reset = true ∧ truthyExists c7w.existsRes = true
    ∧ ∃ rest,
        (postItems c7cfg c7w [itemFoo]).1
          = Event.indexExists c7cfg.indexName
              :: Event.indexDelete c7cfg.indexName :: rest
        ∧ (rest = []
           ∨ ∃ rest2, rest = Event.indexCreate c7cfg.indexName :: rest2
               ∧ ∀ e ∈ rest2, Event.isDocCreate e = true) :=
  ⟨rfl, rfl, c7_reset_delete_create_write_order c7cfg c7w [itemFoo] rfl rfl⟩

/-- Config of the C8 witness run. -/
def c8cfg : Config := ⟨"pages", "master", "idx8", false, false, true, true⟩

/-- Sample entry of the C8 witness run. -/
def c8item : Item := ⟨⟨"p"⟩, []⟩

/-- World of the C8 witness run: index exists and the delete call
rejects. -/
def c8w : World :=
  ⟨some (), some true, none, some ⟨true⟩, some [c8item], fun _ => true⟩

theorem c8_index_mgmt_failure_crashes_to_exit_zero_witness :
    c8w.health = some () ∧ c8w.fetchRes = some [c8item]
    ∧ ([c8item] : List Item) ≠ []
    ∧ (c8cfg.reset = true ∧ truthyExists c8w.existsRes = true
        ∧ c8w.deleteRes = none)
    ∧ ((runMain c8cfg c8w).crashed = true
       ∧ (runMain c8cfg c8w).exit = RunExit.completed
       ∧ RunExit.code (runMain c8cfg c8w).exit = 0
       ∧ (runMain c8cfg c8w).events.filter Event.isDocCreate = []) :=
  ⟨rfl, rfl, by decide, ⟨rfl, rfl, rfl⟩,
   c8_index_mgmt_failure_crashes_to_exit_zero c8cfg c8w [c8item] rfl rfl
     (by decide) (Or.inl ⟨rfl, rfl, rfl⟩)⟩

end ResearchHubSync
